import Mathlib

/-!
# forbidigo: pattern parsing, validation and analyzer configuration

A shallow embedding of `forbidigo/patterns.go` and `pkg/analyzer/analyzer.go`.

Library code the two files call is not part of the repository and is handled as follows.

* `strings.TrimSpace`, `strings.HasPrefix`, `strings.TrimPrefix`, `strings.Contains`
  are modelled directly on Lean strings (sequences of Unicode code points, i.e. the
  valid UTF-8 Go strings).
* `regexp.Compile` and `regexp/syntax.Parse` are parameters (`RegexpLib`).
* `yaml.UnmarshalStrict` and the decoder callback handed to `UnmarshalYAML`
  are parameters (`YAMLLib`, `Unmarshaler`).
* `forbidigo.NewLinter`, `forbidigo.DefaultPatterns` and `Linter.RunWithConfig` are
  parameters of the analyzer (`Forbidigo`).
-/

set_option linter.dupNamespace false

namespace forbidigo

/-! ## Go `strings` helpers -/

/-- Go `unicode.IsSpace`: the Latin-1 spaces and the code points with the
White_Space property. -/
def isSpace (c : Char) : Bool :=
  let n := c.toNat
  n == 0x09 || n == 0x0A || n == 0x0B || n == 0x0C || n == 0x0D || n == 0x20 ||
  n == 0x85 || n == 0xA0 || n == 0x1680 || (0x2000 ≤ n && n ≤ 0x200A) ||
  n == 0x2028 || n == 0x2029 || n == 0x202F || n == 0x205F || n == 0x3000

/-- Go `strings.TrimSpace`: drop leading and trailing white space. -/
def TrimSpace (s : String) : String :=
  ⟨((s.data.dropWhile isSpace).reverse.dropWhile isSpace).reverse⟩

/-- Go `strings.HasPrefix(s, p)`. -/
def HasPrefix (s p : String) : Bool :=
  p.data.isPrefixOf s.data

/-- Go `strings.TrimPrefix(s, p)`: `s` without the leading `p`, or `s` itself. -/
def TrimPrefix (s p : String) : String :=
  if HasPrefix s p then ⟨s.data.drop p.data.length⟩ else s

/-- Go `strings.Contains(s, "\n")`. -/
def containsNewline (s : String) : Bool :=
  s.data.contains '\n'

/-! ## `regexp/syntax` trees -/

/-- The part of `*syntax.Regexp` that `extractComment` observes: the result of
`String()` on the node and its `Sub` slice. -/
inductive Regexp where
  | mk (str : String) (Sub : List Regexp)

/-- Result of `re.String()`. -/
def Regexp.String : Regexp → String
  | .mk s _ => s

/-- Field `re.Sub`. -/
def Regexp.Sub : Regexp → List Regexp
  | .mk _ subs => subs

mutual
/-- Source function `extractComment` (patterns.go, lines 105-118). -/
def extractComment : Regexp → String
  | .mk _ subs => extractCommentLoop subs
/-- The `for _, sub := range re.Sub` loop of `extractComment`, on the remaining
elements of the slice. -/
def extractCommentLoop : List Regexp → String
  | [] => ""
  | sub :: rest =>
    let subStr := sub.String
    if HasPrefix subStr "#" then
      TrimSpace (TrimPrefix sub.String "#")
    else if sub.Sub.length > 0 then
      let comment := extractComment sub
      if comment != "" then comment else extractCommentLoop rest
    else
      extractCommentLoop rest
end

/-! ## Patterns (patterns.go) -/

/-- The two library entry points `validate` calls. Go errors are represented by
their `Error()` text. -/
structure RegexpLib (Re : Type) where
  /-- Go `regexp.Compile(expr)`. -/
  Compile : String → Except String Re
  /-- Go `syntax.Parse(expr, syntax.Perl)` from package `regexp/syntax`. -/
  Parse : String → Except String Regexp

/-- Source type `Pattern` (patterns.go, lines 13-29). A nil `*regexp.Regexp` is
`none`. -/
structure Pattern (Re : Type) where
  re : Option Re
  pkgRe : Option Re
  Pattern : String
  Package : String
  Msg : String
  deriving DecidableEq

/-- The zero value `Pattern{}`. -/
def zeroPattern {Re : Type} : Pattern Re :=
  { re := none, pkgRe := none, Pattern := "", Package := "", Msg := "" }

/-- Source method `(*Pattern).validate` (patterns.go, lines 77-101): the pattern
as the call leaves it, and the returned error (`none` is nil). -/
def validate {Re : Type} (lib : RegexpLib Re) (p : Pattern Re) :
    Pattern Re × Option String :=
  match lib.Compile p.Pattern with
  | .error err =>
    (p, some ("unable to compile source code pattern `" ++ p.Pattern ++ "`: " ++ err))
  | .ok ptrnRe =>
    match lib.Parse p.Pattern with
    | .error err =>
      (p, some ("unable to parse source code pattern `" ++ p.Pattern ++ "`: " ++ err))
    | .ok re =>
      let msg := extractComment re
      let p := if msg != "" then { p with Msg := msg } else p
      let p := { p with re := some ptrnRe }
      if p.Package != "" then
        match lib.Compile p.Package with
        | .error err =>
          (p, some ("unable to compile package pattern `" ++ p.Package ++ "`: " ++ err))
        | .ok pkgRe => ({ p with pkgRe := some pkgRe }, none)
      else
        (p, none)

/-- The exported, yaml-tagged fields of `Pattern` (`pattern`, `package`, `msg`):
everything a YAML decoder stores into a `Pattern`; `re` and `pkgRe` are unexported
and stay as they are. -/
structure Fields where
  Pattern : String
  Package : String
  Msg : String

/-- Store decoded fields into a pattern value. -/
def storeFields {Re : Type} (f : Fields) (p : Pattern Re) : Pattern Re :=
  { p with Pattern := f.Pattern, Package := f.Package, Msg := f.Msg }

/-- The YAML decoder, by target type. -/
structure YAMLLib where
  /-- Go `yaml.UnmarshalStrict(data, &Pattern{})` on a zero `Pattern`: the decode error,
  or the values the exported fields hold afterwards. -/
  UnmarshalStrict : String → Except String Fields
  /-- Go `yaml.Unmarshal(data, &s)` on an empty string variable `s`: the decode error,
  or the string stored. `parse` never calls it. -/
  UnmarshalString : String → Except String String

/-- The condition of the `if` in `parse` (patterns.go, lines 61-62). -/
def isStructured (ptrn : String) : Bool :=
  HasPrefix (TrimSpace ptrn) "\x7b" || containsNewline ptrn

/-- Source function `parse` (patterns.go, lines 58-75): the returned `*Pattern`
(`none` is nil) and the returned error (`none` is nil). -/
def parse {Re : Type} (lib : RegexpLib Re) (yaml : YAMLLib) (ptrn : String) :
    Option (Pattern Re) × Option String :=
  let pattern : Pattern Re := zeroPattern
  let decoded : Except String (Pattern Re) :=
    if isStructured ptrn then
      match yaml.UnmarshalStrict ptrn with
      | .error err => .error ("parsing as JSON or YAML failed: " ++ err)
      | .ok f => .ok (storeFields f pattern)
    else
      .ok { pattern with Pattern := ptrn }
  match decoded with
  | .error err => (none, some err)
  | .ok pattern =>
    match validate lib pattern with
    | (_, some err) => (none, some err)
    | (pattern, none) => (some pattern, none)

/-- The callback `unmarshal func(interface{}) error` handed to `UnmarshalYAML`, by
the two kinds of target the method passes: each maps the target as it is before the
call to the target as the call leaves it and the returned error. -/
structure Unmarshaler (Re : Type) where
  /-- Called with a `*Pattern`. -/
  intoPattern : Pattern Re → Pattern Re × Option String
  /-- Called with a `*string`. -/
  intoString : String → String × Option String

/-- Source method `(*YAMLPattern).UnmarshalYAML` (patterns.go, lines 36-52); a
`YAMLPattern` is a `Pattern`. Returns the target as the call leaves it and the
returned error. -/
def UnmarshalYAML {Re : Type} (lib : RegexpLib Re) (p : Pattern Re)
    (unmarshal : Unmarshaler Re) : Pattern Re × Option String :=
  match unmarshal.intoPattern zeroPattern with
  | (_, some err) =>
    let errStr := err
    match unmarshal.intoString "" with
    | (_, some err) =>
      (p, some ("pattern is neither a regular expression string (" ++ err ++
        ") nor a Pattern struct (" ++ errStr ++ ")"))
    | (ptrn, none) => validate lib { p with Pattern := ptrn }
  | (pattern, none) => validate lib pattern

end forbidigo

namespace analyzer

/-! ## The go/analysis adapter (analyzer.go) -/

/-- A Go `[]string`: `none` is the nil slice, `some xs` a non-nil slice. -/
abbrev StringSlice := Option (List String)

/-- Source type `analyzer` (analyzer.go, lines 28-34); `D` is the type of the
debug-log function. -/
structure analyzer (D : Type) where
  patterns : StringSlice
  usePermitDirective : Bool
  includeExamples : Bool
  expand : Bool
  debugLog : D

/-- Go `flag.BoolVar(p, name, value, usage)`: registering the flag stores the default
`value` into `*p` (package `flag`: `newBoolValue` assigns `*p = val`), whatever `*p`
held. The result is the content of `*p` after the call. -/
def BoolVar (_p : Bool) (value : Bool) : Bool :=
  value

/-- Source function `newAnalyzer` (analyzer.go, lines 44-62): the receiver `a` that
the returned `analysis.Analyzer` runs on and that its flags point into, as it is
when `newAnalyzer` returns. `flags.Var` stores nothing into `a.patterns`. -/
def newAnalyzer {D : Type} (debugLog : D) : analyzer D :=
  let a : analyzer D :=
    { patterns := none
      usePermitDirective := true
      includeExamples := true
      expand := false
      debugLog := debugLog }
  let a := { a with includeExamples := BoolVar a.includeExamples false }
  let a := { a with usePermitDirective := BoolVar a.usePermitDirective true }
  let a := { a with expand := BoolVar a.expand false }
  a

/-- Source function `NewAnalyzer` (analyzer.go, lines 40-42): no debug output. -/
def NewAnalyzer {D : Type} : analyzer (Option D) :=
  newAnalyzer none

/-- An option value handed to `forbidigo.NewLinter`. -/
inductive LinterOption where
  | OptionIgnorePermitDirectives (b : Bool)
  | OptionExcludeGodocExamples (b : Bool)
  deriving DecidableEq, Repr

/-- The fields of `analysis.Pass` that `runAnalysis` reads. -/
structure Pass (F S K T : Type) where
  Files : List F
  Fset : S
  Pkg : K
  TypesInfo : T

/-- Type `forbidigo.RunConfig` as `runAnalysis` fills it; an unset `TypesInfo` is
`none`. -/
structure RunConfig (S K T D : Type) where
  Fset : S
  DebugLog : D
  Pkg : K
  TypesInfo : Option T

/-- The functions of package `forbidigo` that `runAnalysis` calls; `L` is the type
`Linter`, `I` the type `Issue`, `P` a source position. -/
structure Forbidigo (F S K T D L I P : Type) where
  DefaultPatterns : StringSlice
  NewLinter : StringSlice → List LinterOption → Except String L
  RunWithConfig : L → RunConfig S K T D → List F → Except String (List I)
  Pos : I → P
  Details : I → String

/-- Type `analysis.Diagnostic` as `reportIssues` fills it. -/
structure Diagnostic (P : Type) where
  Pos : P
  Message : String
  Category : String
  deriving DecidableEq

/-- Source function `reportIssues` (analyzer.go, lines 91-100): the diagnostics
handed to `pass.Report`, in order. -/
def reportIssues {F S K T D L I P : Type} (fb : Forbidigo F S K T D L I P)
    (issues : List I) : List (Diagnostic P) :=
  issues.map fun i =>
    { Pos := fb.Pos i, Message := fb.Details i, Category := "restriction" }

/-- Source method `(*analyzer).runAnalysis` (analyzer.go, lines 64-89): the
receiver afterwards, the diagnostics reported through `pass.Report`, and the
returned error (the returned value is always nil). -/
def runAnalysis {F S K T D L I P : Type} (fb : Forbidigo F S K T D L I P)
    (a : analyzer D) (pass : Pass F S K T) :
    analyzer D × List (Diagnostic P) × Option String :=
  let a := if a.patterns.isNone then { a with patterns := fb.DefaultPatterns } else a
  match fb.NewLinter a.patterns
      [LinterOption.OptionIgnorePermitDirectives (!a.usePermitDirective),
       LinterOption.OptionExcludeGodocExamples (!a.includeExamples)] with
  | .error err => (a, [], some ("failed to configure linter: " ++ err))
  | .ok linter =>
    let nodes := pass.Files
    let config : RunConfig S K T D :=
      { Fset := pass.Fset, DebugLog := a.debugLog, Pkg := pass.Pkg, TypesInfo := none }
    let config := if a.expand then { config with TypesInfo := some pass.TypesInfo } else config
    match fb.RunWithConfig linter config nodes with
    | .error err => (a, [], some err)
    | .ok issues => (a, reportIssues fb issues, none)

end analyzer

/-! ## Specification-side definitions and sample library values -/

namespace forbidigo

mutual
/-- Every proper sub-expression of a tree in depth-first pre-order: a
sub-expression, then its own sub-expressions, then its next sibling. -/
def preorder : Regexp → List Regexp
  | .mk _ subs => preorderList subs
/-- Pre-order listing of a list of sibling sub-expressions and all below them. -/
def preorderList : List Regexp → List Regexp
  | [] => []
  | sub :: rest => sub :: (preorder sub ++ preorderList rest)
end

/-- The canonical string form of the sub-expression starts with a hash sign. -/
def isComment (sub : Regexp) : Bool :=
  HasPrefix sub.String "#"

/-- The message of a sub-expression: its string form without the leading hash
sign, white space trimmed. -/
def commentOf (sub : Regexp) : String :=
  TrimSpace (TrimPrefix sub.String "#")

/-- The result of `syntax.Parse` on `(#)(#x)`: a concatenation of two capture
groups, each holding one literal. -/
def treeTwoGroups : Regexp :=
  .mk "(#)(#x)" [.mk "(#)" [.mk "#" []], .mk "(#x)" [.mk "#x" []]]

/-- The result of `syntax.Parse` on `foo(#bar)?`: the literal `foo` followed by an
optional capture group holding the literal `#bar`. -/
def treeFooBar : Regexp :=
  .mk "foo(#bar)?" [.mk "foo" [], .mk "(#bar)?" [.mk "(#bar)" [.mk "#bar" []]]]

/-- An excerpt of Go's `regexp` and `regexp/syntax` on the expressions used in the
examples of this file; a compiled expression is represented by its source text.
Expressions outside the excerpt are reported as such, as an error. -/
def goRegexp : RegexpLib String where
  Compile expr :=
    if expr = "foo" ∨ expr = "(#)(#x)" ∨ expr = "foo(#bar)?" ∨ expr = "^fmt$" then .ok expr
    else if expr = "(" then .error "error parsing regexp: missing closing ): `(`"
    else .error "outside the excerpt"
  Parse expr :=
    if expr = "foo" then .ok (.mk "foo" [])
    else if expr = "(#)(#x)" then .ok treeTwoGroups
    else if expr = "foo(#bar)?" then .ok treeFooBar
    else if expr = "(" then .error "error parsing regexp: missing closing ): `(`"
    else .error "outside the excerpt"

/-- An excerpt of `gopkg.in/yaml.v2` on the documents used in the examples of this
file. The document `foo` followed by a line feed is the plain scalar `foo`: it
decodes into a string and not into a `Pattern`. -/
def goYAML : YAMLLib where
  UnmarshalStrict data :=
    if data = "foo\n" then
      .error "yaml: unmarshal errors:\n  line 1: cannot unmarshal !!str `foo` into forbidigo.Pattern"
    else if data = "\x7b\"pattern\": \"foo\", \"package\": \"(\"\x7d" then
      .ok { Pattern := "foo", Package := "(", Msg := "" }
    else if data = "\x7b\"pattern\": \"foo(#bar)?\", \"package\": \"^fmt$\", \"msg\": \"explicit\"\x7d" then
      .ok { Pattern := "foo(#bar)?", Package := "^fmt$", Msg := "explicit" }
    else .error "outside the excerpt"
  UnmarshalString data :=
    if data = "foo\n" then .ok "foo" else .error "outside the excerpt"

/-! ## Auxiliary definitions for the lemmas -/

/-- The `Msg` field after lines 86-89 of `validate`, when the expression parses to `t`
and `Msg` held `old`. -/
def msgAfter (t : Regexp) (old : String) : String :=
  if extractComment t != "" then extractComment t else old

/-- The last step of `parse` (patterns.go, lines 71-74) on the outcome of `validate`. -/
def finish {Re : Type} (r : Pattern Re × Option String) : Option (Pattern Re) × Option String :=
  match r with
  | (_, some err) => (none, some err)
  | (pattern, none) => (some pattern, none)

/-! ## Sample decoder callbacks -/

/-- The decoder callback of `gopkg.in/yaml.v2` on a YAML sequence such as `[a, b]`:
it decodes neither into a `Pattern` nor into a string. -/
def unmarshalSeq : Unmarshaler String where
  intoPattern p :=
    (p, some "yaml: unmarshal errors:\n  line 1: cannot unmarshal !!seq into forbidigo.Pattern")
  intoString s :=
    (s, some "yaml: unmarshal errors:\n  line 1: cannot unmarshal !!seq into string")

/-- The decoder callback of `gopkg.in/yaml.v2` on the scalar `(`: it does not decode
into a `Pattern`, and decodes into the string `(`. -/
def unmarshalParen : Unmarshaler String where
  intoPattern p :=
    (p, some "yaml: unmarshal errors:\n  line 1: cannot unmarshal !!str `(` into forbidigo.Pattern")
  intoString _ := ("(", none)

end forbidigo

namespace analyzer

/-- A stand-in for package `forbidigo` that makes the arguments of `NewLinter`
observable: the linter records the patterns and options it was built from, and its
run reports one issue whose position is that record. -/
def probeForbidigo :
    Forbidigo Unit Unit Unit Unit (Option Unit) (StringSlice × List LinterOption)
      (StringSlice × List LinterOption) (StringSlice × List LinterOption) where
  DefaultPatterns := some ["^(fmt\\.Print(|f|ln)|print|println)$"]
  NewLinter patterns options := .ok (patterns, options)
  RunWithConfig linter _ _ := .ok [linter]
  Pos i := i
  Details _ := ""

/-- A pass without files. -/
def emptyPass : Pass Unit Unit Unit Unit :=
  { Files := [], Fset := (), Pkg := (), TypesInfo := () }

end analyzer

/-! ## Lemmas on comment extraction -/

namespace forbidigo

theorem extractComment_mk (s : String) (subs : List Regexp) :
    extractComment (.mk s subs) = extractCommentLoop subs := by
  simp [extractComment]

theorem preorder_mk (s : String) (subs : List Regexp) :
    preorder (.mk s subs) = preorderList subs := by
  simp [preorder]

theorem extractCommentLoop_cons (sub : Regexp) (rest : List Regexp) :
    extractCommentLoop (sub :: rest) =
      if isComment sub then commentOf sub
      else if sub.Sub.length > 0 then
        if extractComment sub != "" then extractComment sub else extractCommentLoop rest
      else extractCommentLoop rest := by
  simp [extractCommentLoop, isComment, commentOf]

mutual
theorem extractComment_none (re : Regexp)
    (h : ∀ x ∈ preorder re, isComment x = false) : extractComment re = "" := by
  match re with
  | .mk s subs =>
    rw [extractComment_mk]
    rw [preorder_mk] at h
    exact extractCommentLoop_none subs h
theorem extractCommentLoop_none (subs : List Regexp)
    (h : ∀ x ∈ preorderList subs, isComment x = false) : extractCommentLoop subs = "" := by
  match subs with
  | [] => simp [extractCommentLoop]
  | sub :: rest =>
    rw [preorderList] at h
    have h1 : isComment sub = false := h sub (by simp)
    have h2 : extractComment sub = "" :=
      extractComment_none sub (fun x hx => h x (by simp [hx]))
    have h3 : extractCommentLoop rest = "" :=
      extractCommentLoop_none rest (fun x hx => h x (by simp [hx]))
    rw [extractCommentLoop_cons]
    simp [h1, h2, h3]
end

theorem preorder_of_sub_nil (sub : Regexp) (h : ¬ sub.Sub.length > 0) : preorder sub = [] := by
  match sub with
  | .mk s subs =>
    have : subs = [] := by
      cases subs with
      | nil => rfl
      | cons a l => simp [Regexp.Sub] at h
    subst this
    simp [preorder, preorderList]

mutual
theorem extractComment_first (re s : Regexp)
    (h : (preorder re).find? isComment = some s) (hs : commentOf s ≠ "") :
    extractComment re = commentOf s := by
  match re with
  | .mk str subs =>
    rw [extractComment_mk]
    rw [preorder_mk] at h
    exact extractCommentLoop_first subs s h hs
theorem extractCommentLoop_first (subs : List Regexp) (s : Regexp)
    (h : (preorderList subs).find? isComment = some s) (hs : commentOf s ≠ "") :
    extractCommentLoop subs = commentOf s := by
  match subs with
  | [] => simp [preorderList] at h
  | sub :: rest =>
    rw [extractCommentLoop_cons]
    rw [preorderList, List.find?_cons] at h
    cases hc : isComment sub with
    | true =>
      rw [hc] at h
      simp at h
      simp [h]
    | false =>
      rw [hc] at h
      simp only [Bool.false_eq_true, if_false]
      rw [List.find?_append] at h
      cases hf : (preorder sub).find? isComment with
      | some s1 =>
        rw [hf] at h
        simp at h
        subst h
        have h2 := extractComment_first sub s1 hf hs
        have hlen : sub.Sub.length > 0 := by
          by_contra hn
          rw [preorder_of_sub_nil sub hn] at hf
          simp at hf
        simp [hlen, h2, hs]
      | none =>
        rw [hf] at h
        simp at h
        have h2 : extractComment sub = "" :=
          extractComment_none sub (fun x hx => by
            have := List.find?_eq_none.mp hf x hx
            simpa using this)
        have h3 := extractCommentLoop_first rest s h hs
        simp [h2, h3]
end

end forbidigo

/-! ## Lemmas on validation and parsing -/

namespace forbidigo

theorem validate_compile_error {Re : Type} (lib : RegexpLib Re) (p : Pattern Re) (e : String)
    (hc : lib.Compile p.Pattern = .error e) :
    validate lib p =
      (p, some ("unable to compile source code pattern `" ++ p.Pattern ++ "`: " ++ e)) := by
  simp [validate, hc]

theorem validate_parse_error {Re : Type} (lib : RegexpLib Re) (p : Pattern Re) (r : Re)
    (e : String) (hc : lib.Compile p.Pattern = .ok r) (hp : lib.Parse p.Pattern = .error e) :
    validate lib p =
      (p, some ("unable to parse source code pattern `" ++ p.Pattern ++ "`: " ++ e)) := by
  simp [validate, hc, hp]

theorem validate_no_package {Re : Type} (lib : RegexpLib Re) (p : Pattern Re) (r : Re)
    (t : Regexp) (hc : lib.Compile p.Pattern = .ok r) (hp : lib.Parse p.Pattern = .ok t)
    (hk : p.Package = "") :
    validate lib p = ({ p with Msg := msgAfter t p.Msg, re := some r }, none) := by
  by_cases hm : extractComment t = "" <;> simp [validate, hc, hp, hk, hm, msgAfter]

theorem validate_package_error {Re : Type} (lib : RegexpLib Re) (p : Pattern Re) (r : Re)
    (t : Regexp) (e : String) (hc : lib.Compile p.Pattern = .ok r)
    (hp : lib.Parse p.Pattern = .ok t) (hk : p.Package ≠ "")
    (hq : lib.Compile p.Package = .error e) :
    validate lib p =
      ({ p with Msg := msgAfter t p.Msg, re := some r },
        some ("unable to compile package pattern `" ++ p.Package ++ "`: " ++ e)) := by
  by_cases hm : extractComment t = "" <;> simp [validate, hc, hp, hk, hm, hq, msgAfter]

theorem validate_package_ok {Re : Type} (lib : RegexpLib Re) (p : Pattern Re) (r k : Re)
    (t : Regexp) (hc : lib.Compile p.Pattern = .ok r)
    (hp : lib.Parse p.Pattern = .ok t) (hk : p.Package ≠ "")
    (hq : lib.Compile p.Package = .ok k) :
    validate lib p =
      ({ p with Msg := msgAfter t p.Msg, re := some r, pkgRe := some k }, none) := by
  by_cases hm : extractComment t = "" <;> simp [validate, hc, hp, hk, hm, hq, msgAfter]

theorem validate_keeps_strings {Re : Type} (lib : RegexpLib Re) (p : Pattern Re) :
    (validate lib p).1.Pattern = p.Pattern ∧ (validate lib p).1.Package = p.Package := by
  unfold validate
  cases lib.Compile p.Pattern with
  | error e => simp
  | ok r =>
    cases lib.Parse p.Pattern with
    | error e => simp
    | ok t =>
      by_cases hm : extractComment t = "" <;> by_cases hk : p.Package = "" <;>
        simp [hm, hk]
      all_goals (cases lib.Compile p.Package <;> simp)

theorem parse_plain_eq {Re : Type} (lib : RegexpLib Re) (yaml : YAMLLib) (ptrn : String)
    (h : isStructured ptrn = false) :
    parse lib yaml ptrn = finish (validate lib { zeroPattern with Pattern := ptrn }) := by
  simp only [parse, h, finish]
  rfl

theorem parse_decoded_eq {Re : Type} (lib : RegexpLib Re) (yaml : YAMLLib) (ptrn : String)
    (f : Fields) (h : isStructured ptrn = true) (hf : yaml.UnmarshalStrict ptrn = .ok f) :
    parse lib yaml ptrn = finish (validate lib (storeFields f zeroPattern)) := by
  simp only [parse, h, hf, finish]
  rfl

theorem parse_decode_error {Re : Type} (lib : RegexpLib Re) (yaml : YAMLLib) (ptrn : String)
    (e : String) (h : isStructured ptrn = true) (hf : yaml.UnmarshalStrict ptrn = .error e) :
    parse lib yaml ptrn = (none, some ("parsing as JSON or YAML failed: " ++ e)) := by
  simp only [parse, h, hf]
  rfl

theorem finish_cases {Re : Type} (r : Pattern Re × Option String) :
    (∃ e, r.2 = some e ∧ finish r = (none, some e)) ∨
      (r.2 = none ∧ finish r = (some r.1, none)) := by
  rcases r with ⟨q, _ | e⟩
  · right; simp [finish]
  · left; exact ⟨e, rfl, by simp [finish]⟩

theorem validate_success {Re : Type} (lib : RegexpLib Re) (q : Pattern Re)
    (h : (validate lib q).2 = none) :
    ∃ r t, lib.Compile q.Pattern = .ok r ∧ lib.Parse q.Pattern = .ok t ∧
      (validate lib q).1.re = some r ∧ (validate lib q).1.Msg = msgAfter t q.Msg ∧
      (q.Package = "" → (validate lib q).1.pkgRe = q.pkgRe) ∧
      (q.Package ≠ "" → ∃ k, lib.Compile q.Package = .ok k ∧
        (validate lib q).1.pkgRe = some k) := by
  cases hc : lib.Compile q.Pattern with
  | error e => rw [validate_compile_error lib q e hc] at h; simp at h
  | ok r =>
    cases hp : lib.Parse q.Pattern with
    | error e => rw [validate_parse_error lib q r e hc hp] at h; simp at h
    | ok t =>
      by_cases hk : q.Package = ""
      · rw [validate_no_package lib q r t hc hp hk]
        exact ⟨r, t, rfl, rfl, rfl, rfl, fun _ => rfl, fun hn => absurd hk hn⟩
      · cases hq : lib.Compile q.Package with
        | error e => rw [validate_package_error lib q r t e hc hp hk hq] at h; simp at h
        | ok k =>
          rw [validate_package_ok lib q r k t hc hp hk hq]
          exact ⟨r, t, rfl, rfl, rfl, rfl, fun hn => absurd hn hk, fun _ => ⟨k, rfl, rfl⟩⟩

theorem validate_failure {Re : Type} (lib : RegexpLib Re) (q : Pattern Re)
    (h : (∃ e, lib.Compile q.Pattern = .error e) ∨ (∃ e, lib.Parse q.Pattern = .error e) ∨
      (q.Package ≠ "" ∧ ∃ e, lib.Compile q.Package = .error e)) :
    ∃ e, (validate lib q).2 = some e := by
  cases hv : (validate lib q).2 with
  | some e => exact ⟨e, rfl⟩
  | none =>
    obtain ⟨r, t, hc, hp, _, _, _, hpk⟩ := validate_success lib q hv
    rcases h with ⟨e, he⟩ | ⟨e, he⟩ | ⟨hk, e, he⟩
    · rw [hc] at he; cases he
    · rw [hp] at he; cases he
    · obtain ⟨k, hk2, _⟩ := hpk hk
      rw [hk2] at he; cases he

theorem isStructured_false_of (ptrn : String) (hnl : '\n' ∉ ptrn.data)
    (hb : (TrimSpace ptrn).data.head? ≠ some (Char.ofNat 123)) :
    isStructured ptrn = false := by
  have h1 : containsNewline ptrn = false := by
    simpa [containsNewline] using hnl
  have h2 : HasPrefix (TrimSpace ptrn) "\x7b" = false := by
    unfold HasPrefix
    cases hd : (TrimSpace ptrn).data with
    | nil =>
      have : ("\x7b" : String).data = [Char.ofNat 123] := by decide
      rw [this]; rfl
    | cons c cs =>
      have : ("\x7b" : String).data = [Char.ofNat 123] := by decide
      rw [this]
      rw [hd] at hb
      simp only [List.head?_cons, ne_eq, Option.some.injEq] at hb
      simp [List.isPrefixOf, Ne.symm hb]
  simp [isStructured, h1, h2]

end forbidigo

/-! ## Lemmas on the analyzer -/

namespace analyzer

end analyzer

/-! ## Claims -/

namespace forbidigo

/-- C1. For an input without a line feed whose trimmed form does not begin with an
opening brace, `parse` does not consult the YAML decoder (its result is the same
for every decoder); it returns a pattern and no error exactly when `regexp.Compile`
and `syntax.Parse` both accept the input; and the returned pattern has the input,
untrimmed, as `Pattern`, an empty `Package`, no package matcher, the matcher
`regexp.Compile` returns for the input, and as `Msg` the comment extracted from the
parsed expression. -/
theorem parse_plain {Re : Type} (lib : RegexpLib Re) (yaml : YAMLLib) (ptrn : String)
    (hnl : '\n' ∉ ptrn.data) (hb : (TrimSpace ptrn).data.head? ≠ some '{') :
    (∀ yaml2 : YAMLLib, parse lib yaml2 ptrn = parse lib yaml ptrn) ∧
    ((∃ p, parse lib yaml ptrn = (some p, none)) ↔
      ∃ r t, lib.Compile ptrn = .ok r ∧ lib.Parse ptrn = .ok t) ∧
    (∀ p, (parse lib yaml ptrn).1 = some p →
      p.Pattern = ptrn ∧ p.Package = "" ∧ p.pkgRe = none ∧
      (∃ r, lib.Compile ptrn = .ok r ∧ p.re = some r) ∧
      (∃ t, lib.Parse ptrn = .ok t ∧ p.Msg = extractComment t)) := by
  have hs : isStructured ptrn = false := isStructured_false_of ptrn hnl hb
  have hplain : ∀ y : YAMLLib,
      parse lib y ptrn = finish (validate lib { zeroPattern with Pattern := ptrn }) :=
    fun y => parse_plain_eq lib y ptrn hs
  have hmsg : ∀ t, msgAfter t "" = extractComment t := by
    intro t
    by_cases hm : extractComment t = "" <;> simp [msgAfter, hm]
  refine ⟨fun y => by rw [hplain y, hplain yaml], ?_, ?_⟩
  · rw [hplain yaml]
    constructor
    · rintro ⟨p, hp⟩
      rcases finish_cases (validate lib { zeroPattern with Pattern := ptrn }) with
        ⟨e, _, he⟩ | ⟨hn, _⟩
      · rw [he] at hp; simp at hp
      · obtain ⟨r, t, hc, hpr, _⟩ := validate_success lib _ hn
        exact ⟨r, t, hc, hpr⟩
    · rintro ⟨r, t, hc, hpr⟩
      have hv := validate_no_package lib ({ zeroPattern with Pattern := ptrn }) r t hc hpr rfl
      rw [hv]
      exact ⟨_, rfl⟩
  · intro p hp
    rw [hplain yaml] at hp
    rcases finish_cases (validate lib { zeroPattern with Pattern := ptrn }) with
      ⟨e, _, he⟩ | ⟨hn, hf⟩
    · rw [he] at hp; simp at hp
    · rw [hf] at hp
      simp only [Option.some.injEq] at hp
      obtain ⟨r, t, hc, hpr, hre, hm, hpk, _⟩ := validate_success lib _ hn
      have hkeep := validate_keeps_strings lib ({ zeroPattern with Pattern := ptrn })
      subst hp
      refine ⟨hkeep.1, hkeep.2, hpk rfl, ⟨r, hc, hre⟩, ⟨t, hpr, ?_⟩⟩
      rw [hm]
      exact hmsg t

/-- Witness for C1: the plain input `foo(#bar)?`. -/
theorem parse_plain_witness :
    parse goRegexp goYAML "foo(#bar)?" =
        (some { re := some "foo(#bar)?", pkgRe := none, Pattern := "foo(#bar)?",
                Package := "", Msg := "bar" }, none) ∧
      ∃ r t, goRegexp.Compile "foo(#bar)?" = .ok r ∧ goRegexp.Parse "foo(#bar)?" = .ok t :=
  ⟨by decide,
    (parse_plain goRegexp goYAML "foo(#bar)?" (by decide) (by decide)).2.1.mp
      ⟨_, by rfl⟩⟩

/-- C2. For every input, `parse` returns an error and no pattern, or a pattern and no
error. It returns an error whenever the pattern string (the input itself in the
plain form, the decoded `pattern` field in the structured form) is rejected by
`regexp.Compile` or by `syntax.Parse`, or the package string is not empty and is
rejected by `regexp.Compile`. Every pattern it returns carries the matcher compiled
from its own `Pattern` string, and a package matcher, compiled from its `Package`
string, exactly when that string is not empty. -/
theorem parse_result {Re : Type} (lib : RegexpLib Re) (yaml : YAMLLib) (ptrn : String) :
    ((∃ e, parse lib yaml ptrn = (none, some e)) ∨
      (∃ p, parse lib yaml ptrn = (some p, none))) ∧
    (isStructured ptrn = false →
      ((∃ e, lib.Compile ptrn = .error e) ∨ (∃ e, lib.Parse ptrn = .error e)) →
      ∃ e, parse lib yaml ptrn = (none, some e)) ∧
    (∀ f, isStructured ptrn = true → yaml.UnmarshalStrict ptrn = .ok f →
      ((∃ e, lib.Compile f.Pattern = .error e) ∨ (∃ e, lib.Parse f.Pattern = .error e) ∨
        (f.Package ≠ "" ∧ ∃ e, lib.Compile f.Package = .error e)) →
      ∃ e, parse lib yaml ptrn = (none, some e)) ∧
    (∀ p, (parse lib yaml ptrn).1 = some p →
      (∃ r, lib.Compile p.Pattern = .ok r ∧ p.re = some r) ∧
      (p.Package = "" → p.pkgRe = none) ∧
      (p.Package ≠ "" → ∃ k, lib.Compile p.Package = .ok k ∧ p.pkgRe = some k)) := by
  -- every path of `parse` either stops with the decode error or validates a pattern
  -- whose package matcher is still nil
  have hshape : (∃ e, parse lib yaml ptrn = (none, some e)) ∨
      ∃ q : Pattern Re, q.pkgRe = none ∧ parse lib yaml ptrn = finish (validate lib q) ∧
        (isStructured ptrn = false → q = { zeroPattern with Pattern := ptrn }) ∧
        (∀ f, isStructured ptrn = true → yaml.UnmarshalStrict ptrn = .ok f →
          q = storeFields f zeroPattern) := by
    cases hs : isStructured ptrn with
    | false =>
      exact Or.inr ⟨_, rfl, parse_plain_eq lib yaml ptrn hs, fun _ => rfl,
        fun f h => by simp at h⟩
    | true =>
      cases hf : yaml.UnmarshalStrict ptrn with
      | error e => exact Or.inl ⟨_, parse_decode_error lib yaml ptrn e hs hf⟩
      | ok f =>
        refine Or.inr ⟨storeFields f zeroPattern, rfl, parse_decoded_eq lib yaml ptrn f hs hf,
          fun h => by simp at h, fun g _ hg => ?_⟩
        simp only [Except.ok.injEq] at hg
        rw [hg]
  have hfail : ∀ q : Pattern Re, parse lib yaml ptrn = finish (validate lib q) →
      ((∃ e, lib.Compile q.Pattern = .error e) ∨ (∃ e, lib.Parse q.Pattern = .error e) ∨
        (q.Package ≠ "" ∧ ∃ e, lib.Compile q.Package = .error e)) →
      ∃ e, parse lib yaml ptrn = (none, some e) := by
    intro q hq hbad
    obtain ⟨e, he⟩ := validate_failure lib q hbad
    rcases finish_cases (validate lib q) with ⟨e2, _, hfin⟩ | ⟨hn, _⟩
    · exact ⟨e2, by rw [hq, hfin]⟩
    · rw [hn] at he; cases he
  refine ⟨?_, ?_, ?_, ?_⟩
  · rcases hshape with h | ⟨q, _, hq, _⟩
    · exact Or.inl h
    · rcases finish_cases (validate lib q) with ⟨e, _, hfin⟩ | ⟨_, hfin⟩
      · exact Or.inl ⟨e, by rw [hq, hfin]⟩
      · exact Or.inr ⟨_, by rw [hq, hfin]⟩
  · intro hs hbad
    rcases hshape with h | ⟨q, _, hq, hplain, _⟩
    · exact h
    · have hq2 := hplain hs
      subst hq2
      apply hfail _ hq
      rcases hbad with h | h
      · exact Or.inl h
      · exact Or.inr (Or.inl h)
  · intro f hs hf hbad
    rcases hshape with h | ⟨q, _, hq, _, hdec⟩
    · exact h
    · have hq2 := hdec f hs hf
      subst hq2
      exact hfail _ hq hbad
  · intro p hp
    rcases hshape with ⟨e, he⟩ | ⟨q, hnil, hq, _⟩
    · rw [he] at hp; simp at hp
    · rcases finish_cases (validate lib q) with ⟨e, _, hfin⟩ | ⟨hn, hfin⟩
      · rw [hq, hfin] at hp; simp at hp
      · rw [hq, hfin] at hp
        simp only [Option.some.injEq] at hp
        obtain ⟨r, t, hc, _, hre, _, hpk0, hpk1⟩ := validate_success lib q hn
        have hkeep := validate_keeps_strings lib q
        subst hp
        rw [hkeep.1, hkeep.2]
        exact ⟨⟨r, hc, hre⟩, fun hk => by rw [hpk0 hk, hnil], hpk1⟩

/-- Witness for C2: the structured input whose package expression is an unbalanced
group is rejected, and a structured input with a package expression that compiles
yields both matchers. -/
theorem parse_result_witness :
    (∃ e, parse goRegexp goYAML "\x7b\"pattern\": \"foo\", \"package\": \"(\"\x7d" =
      (none, some e)) ∧
    parse goRegexp goYAML
        "\x7b\"pattern\": \"foo(#bar)?\", \"package\": \"^fmt$\", \"msg\": \"explicit\"\x7d" =
      (some { re := some "foo(#bar)?", pkgRe := some "^fmt$", Pattern := "foo(#bar)?",
              Package := "^fmt$", Msg := "bar" }, none) :=
  ⟨(parse_result goRegexp goYAML "\x7b\"pattern\": \"foo\", \"package\": \"(\"\x7d").2.2.1
      { Pattern := "foo", Package := "(", Msg := "" } (by decide) (by rfl)
      (Or.inr (Or.inr ⟨by decide, _, by rfl⟩)),
    by decide⟩

/-- C3. When the `Pattern` string compiles and parses, `validate` leaves `Msg` equal
to the comment extracted from the parsed expression if that comment is not empty,
whatever `Msg` held before, and leaves `Msg` as it was if the comment is empty. -/
theorem validate_msg {Re : Type} (lib : RegexpLib Re) (p : Pattern Re) (r : Re) (t : Regexp)
    (hc : lib.Compile p.Pattern = .ok r) (hp : lib.Parse p.Pattern = .ok t) :
    (extractComment t ≠ "" → (validate lib p).1.Msg = extractComment t) ∧
    (extractComment t = "" → (validate lib p).1.Msg = p.Msg) := by
  have hmsg : (validate lib p).1.Msg = msgAfter t p.Msg := by
    by_cases hk : p.Package = ""
    · rw [validate_no_package lib p r t hc hp hk]
    · cases hq : lib.Compile p.Package with
      | error e => rw [validate_package_error lib p r t e hc hp hk hq]
      | ok k => rw [validate_package_ok lib p r k t hc hp hk hq]
  rw [hmsg]
  constructor
  · intro h; simp [msgAfter, h]
  · intro h; simp [msgAfter, h]

/-- Witness for C3: an explicit message is overwritten by the embedded comment of
`foo(#bar)?`. -/
theorem validate_msg_witness :
    (validate goRegexp
      { re := none, pkgRe := none, Pattern := "foo(#bar)?", Package := "",
        Msg := "explicit" }).1.Msg = "bar" :=
  ((validate_msg goRegexp
      { re := none, pkgRe := none, Pattern := "foo(#bar)?", Package := "", Msg := "explicit" }
      "foo(#bar)?" treeFooBar (by rfl) (by rfl)).1 (by decide)).trans (by decide)

/-- C5, as stated, fails. The input `foo` followed by a line feed takes the
structured form and is a bare string scalar: it decodes into the string `foo`, which
`parse` accepts as a plain pattern, but `parse` reports the failure of the struct
decode and does not retry. -/
theorem parse_no_plain_retry :
    isStructured "foo\n" = true ∧
    goYAML.UnmarshalString "foo\n" = .ok "foo" ∧
    (∃ p, parse goRegexp goYAML "foo" = (some p, none)) ∧
    parse goRegexp goYAML "foo\n" =
      (none, some ("parsing as JSON or YAML failed: yaml: unmarshal errors:\n" ++
        "  line 1: cannot unmarshal !!str `foo` into forbidigo.Pattern")) :=
  ⟨by decide, by rfl, ⟨_, by rfl⟩, by rfl⟩

/-- C5, amended. For an input in the structured form `parse` decodes the payload
once, strictly, as a `Pattern` struct. If that decode fails, `parse` fails at once
with the decode error, and whether the payload decodes as a string plays no part;
if it succeeds, the decoded fields are validated. -/
theorem parse_structured {Re : Type} (lib : RegexpLib Re) (yaml : YAMLLib) (ptrn : String)
    (hs : isStructured ptrn = true) :
    (∀ e, yaml.UnmarshalStrict ptrn = .error e →
      parse lib yaml ptrn = (none, some ("parsing as JSON or YAML failed: " ++ e))) ∧
    (∀ f, yaml.UnmarshalStrict ptrn = .ok f →
      ∀ p, parse lib yaml ptrn = (some p, none) ↔
        validate lib { re := none, pkgRe := none, Pattern := f.Pattern,
                       Package := f.Package, Msg := f.Msg } = (p, none)) ∧
    (∀ yaml2 : YAMLLib, yaml2.UnmarshalStrict = yaml.UnmarshalStrict →
      parse lib yaml2 ptrn = parse lib yaml ptrn) := by
  refine ⟨fun e he => parse_decode_error lib yaml ptrn e hs he, ?_, ?_⟩
  · intro f hf p
    rw [parse_decoded_eq lib yaml ptrn f hs hf]
    have hq : (storeFields f zeroPattern : Pattern Re) =
        { re := none, pkgRe := none, Pattern := f.Pattern, Package := f.Package,
          Msg := f.Msg } := rfl
    rw [hq]
    generalize validate lib _ = v
    rcases v with ⟨q, _ | e⟩ <;> simp [finish]
  · intro yaml2 h2
    cases hf : yaml.UnmarshalStrict ptrn with
    | error e =>
      rw [parse_decode_error lib yaml ptrn e hs hf,
        parse_decode_error lib yaml2 ptrn e hs (by rw [h2, hf])]
    | ok f =>
      rw [parse_decoded_eq lib yaml ptrn f hs hf,
        parse_decoded_eq lib yaml2 ptrn f hs (by rw [h2, hf])]

/-- Witness for C5 amended, on the input `foo` followed by a line feed. -/
theorem parse_structured_witness :
    parse goRegexp goYAML "foo\n" =
      (none, some ("parsing as JSON or YAML failed: " ++
        "yaml: unmarshal errors:\n  line 1: cannot unmarshal !!str `foo` into forbidigo.Pattern")) :=
  (parse_structured goRegexp goYAML "foo\n" (by decide)).1 _ (by rfl)

/-- C6. When the callback fails on the `Pattern` target and on the string target,
`UnmarshalYAML` returns an error whose text contains the text of both errors,
leaves the target as it was, and does not depend on the regular-expression library
(validation is not run). When the callback fails on the `Pattern` target and
succeeds on the string target, the result is that of validating the target with the
decoded string stored in `Pattern`. -/
theorem UnmarshalYAML_decode_failure {Re : Type} (p : Pattern Re) (cb : Unmarshaler Re)
    (q : Pattern Re) (errStr : String) (h1 : cb.intoPattern zeroPattern = (q, some errStr)) :
    (∀ s err, cb.intoString "" = (s, some err) →
      ∃ msg : String, (∀ lib : RegexpLib Re, UnmarshalYAML lib p cb = (p, some msg)) ∧
        err.data <:+: msg.data ∧ errStr.data <:+: msg.data) ∧
    (∀ s, cb.intoString "" = (s, none) →
      ∀ lib : RegexpLib Re, UnmarshalYAML lib p cb = validate lib { p with Pattern := s }) := by
  constructor
  · intro s err h2
    refine ⟨"pattern is neither a regular expression string (" ++ err ++
        ") nor a Pattern struct (" ++ errStr ++ ")", ?_, ?_, ?_⟩
    · intro lib
      simp [UnmarshalYAML, h1, h2]
    · refine ⟨("pattern is neither a regular expression string (").data,
        (") nor a Pattern struct (" ++ errStr ++ ")").data, ?_⟩
      simp [String.data_append, List.append_assoc]
    · refine ⟨("pattern is neither a regular expression string (" ++ err ++
        ") nor a Pattern struct (").data, (")" : String).data, ?_⟩
      simp [String.data_append, List.append_assoc]
  · intro s h2 lib
    simp [UnmarshalYAML, h1, h2]

/-- Witness for C6: a YAML sequence decodes into neither target. -/
theorem UnmarshalYAML_decode_failure_witness :
    ∃ msg : String,
      (∀ lib : RegexpLib String,
        UnmarshalYAML lib zeroPattern unmarshalSeq = (zeroPattern, some msg)) ∧
      ("yaml: unmarshal errors:\n  line 1: cannot unmarshal !!seq into string").data <:+:
        msg.data ∧
      ("yaml: unmarshal errors:\n  line 1: cannot unmarshal !!seq into forbidigo.Pattern").data
        <:+: msg.data :=
  (UnmarshalYAML_decode_failure (zeroPattern : Pattern String) unmarshalSeq zeroPattern
    "yaml: unmarshal errors:\n  line 1: cannot unmarshal !!seq into forbidigo.Pattern"
    (by rfl)).1 "" "yaml: unmarshal errors:\n  line 1: cannot unmarshal !!seq into string"
    (by rfl)

end forbidigo

namespace analyzer

/-- C7, as stated, fails. On the analyzer `NewAnalyzer` builds, with no flag set,
`includeExamples` is false (registering the `examples` flag stores its default), and
the linter `runAnalysis` scans with was built from `OptionExcludeGodocExamples(true)`:
godoc examples are excluded. -/
theorem default_examples_not_included :
    (NewAnalyzer : analyzer (Option Unit)).includeExamples = false ∧
    (runAnalysis probeForbidigo NewAnalyzer emptyPass).2 =
      ([{ Pos := (some ["^(fmt\\.Print(|f|ln)|print|println)$"],
                  [LinterOption.OptionIgnorePermitDirectives false,
                   LinterOption.OptionExcludeGodocExamples true]),
          Message := "", Category := "restriction" }], none) := by
  decide

/-- C7, amended. For an analyzer built by `newAnalyzer` on which no flag has been
set, `includeExamples` is false and `runAnalysis` makes its one call to `NewLinter`
with the default patterns and the options `OptionIgnorePermitDirectives(false)`,
`OptionExcludeGodocExamples(true)`: godoc examples are excluded by default. It fails
with the wrapped error if that call fails and otherwise reports what the scan with
the returned linter gives. In every analyzer state the call carries
`OptionExcludeGodocExamples` with the negation of `includeExamples`, the variable of
the `examples` flag, and the scan uses the linter that call returns. -/
theorem newAnalyzer_excludes_examples {F S K T D L I P : Type} (debugLog : D)
    (fb : Forbidigo F S K T D L I P) (pass : Pass F S K T) :
    (newAnalyzer debugLog).includeExamples = false ∧
    runAnalysis fb (newAnalyzer debugLog) pass =
      (match fb.NewLinter fb.DefaultPatterns
          [LinterOption.OptionIgnorePermitDirectives false,
           LinterOption.OptionExcludeGodocExamples true] with
      | .error err =>
        ({ newAnalyzer debugLog with patterns := fb.DefaultPatterns }, [],
          some ("failed to configure linter: " ++ err))
      | .ok linter =>
        match fb.RunWithConfig linter
            { Fset := pass.Fset, DebugLog := debugLog, Pkg := pass.Pkg, TypesInfo := none }
            pass.Files with
        | .error err =>
          ({ newAnalyzer debugLog with patterns := fb.DefaultPatterns }, [], some err)
        | .ok issues =>
          ({ newAnalyzer debugLog with patterns := fb.DefaultPatterns },
            reportIssues fb issues, none)) ∧
    (∀ a : analyzer D,
      (runAnalysis fb a pass).2 =
        match fb.NewLinter (if a.patterns = none then fb.DefaultPatterns else a.patterns)
            [LinterOption.OptionIgnorePermitDirectives (!a.usePermitDirective),
             LinterOption.OptionExcludeGodocExamples (!a.includeExamples)] with
        | .error err => ([], some ("failed to configure linter: " ++ err))
        | .ok linter =>
          match fb.RunWithConfig linter
              { Fset := pass.Fset, DebugLog := a.debugLog, Pkg := pass.Pkg,
                TypesInfo := if a.expand then some pass.TypesInfo else none } pass.Files with
          | .error err => ([], some err)
          | .ok issues => (reportIssues fb issues, none)) := by
  refine ⟨rfl, ?_, ?_⟩
  · simp only [runAnalysis, newAnalyzer, BoolVar, Option.isNone_none, if_true,
      Bool.not_true, Bool.not_false, Bool.false_eq_true, if_false]
  · intro a
    cases hp : a.patterns with
    | none =>
      simp only [runAnalysis, hp, Option.isNone_none, if_true]
      cases fb.NewLinter fb.DefaultPatterns
          [LinterOption.OptionIgnorePermitDirectives (!a.usePermitDirective),
           LinterOption.OptionExcludeGodocExamples (!a.includeExamples)] with
      | error err => rfl
      | ok linter =>
        cases hx : a.expand <;> simp only [hx, Bool.false_eq_true, if_false, if_true] <;>
          split <;> rfl
    | some xs =>
      simp only [runAnalysis, hp, Option.isNone_some, Bool.false_eq_true, if_false,
        reduceCtorEq]
      cases fb.NewLinter (some xs)
          [LinterOption.OptionIgnorePermitDirectives (!a.usePermitDirective),
           LinterOption.OptionExcludeGodocExamples (!a.includeExamples)] with
      | error err => rfl
      | ok linter =>
        cases hx : a.expand <;> simp only [hx, Bool.false_eq_true, if_false, if_true] <;>
          split <;> rfl

/-- Witness for C7 amended: with the `examples` variable set to true the linter is
built from `OptionExcludeGodocExamples(false)`. -/
theorem newAnalyzer_excludes_examples_witness :
    (runAnalysis probeForbidigo
        { (NewAnalyzer : analyzer (Option Unit)) with includeExamples := true } emptyPass).2 =
      ([{ Pos := (some ["^(fmt\\.Print(|f|ln)|print|println)$"],
                  [LinterOption.OptionIgnorePermitDirectives false,
                   LinterOption.OptionExcludeGodocExamples false]),
          Message := "", Category := "restriction" }], none) :=
  ((newAnalyzer_excludes_examples none probeForbidigo emptyPass).2.2
    { (NewAnalyzer : analyzer (Option Unit)) with includeExamples := true }).trans (by decide)

end analyzer

namespace forbidigo

/-- C9, as stated, fails. On the scalar `(` the struct decode fails, the string
decode stores `(` in the `Pattern` field of the target, and validation then fails:
`UnmarshalYAML` returns the error and leaves `(` in the target. -/
theorem UnmarshalYAML_not_atomic :
    UnmarshalYAML goRegexp zeroPattern unmarshalParen =
      ({ re := none, pkgRe := none, Pattern := "(", Package := "", Msg := "" },
        some ("unable to compile source code pattern `(`: " ++
          "error parsing regexp: missing closing ): `(`")) ∧
    (UnmarshalYAML goRegexp zeroPattern unmarshalParen).1 ≠ zeroPattern := by
  constructor
  · rfl
  · decide

/-- C9, amended. When `UnmarshalYAML` returns an error, either both decodes failed
and the target is exactly as before, or validation failed and the target is not
restored: it holds the decoded content (the decoded struct, or the previous target
with the decoded string in `Pattern`), with `Pattern`, `Package` and the package
matcher as decoded, and is either exactly that content or that content with `Msg`
and the pattern matcher already set by `validate`. -/
theorem UnmarshalYAML_on_error {Re : Type} (lib : RegexpLib Re) (p : Pattern Re)
    (cb : Unmarshaler Re) (e : String) (h : (UnmarshalYAML lib p cb).2 = some e) :
    ((∃ err, (cb.intoPattern zeroPattern).2 = some err) ∧
      (∃ err, (cb.intoString "").2 = some err) ∧ (UnmarshalYAML lib p cb).1 = p) ∨
    (∃ q : Pattern Re,
      (cb.intoPattern zeroPattern = (q, none) ∨
        ((∃ err, (cb.intoPattern zeroPattern).2 = some err) ∧
          cb.intoString "" = (q.Pattern, none) ∧ q = { p with Pattern := q.Pattern })) ∧
      UnmarshalYAML lib p cb = validate lib q ∧
      (UnmarshalYAML lib p cb).1.Pattern = q.Pattern ∧
      (UnmarshalYAML lib p cb).1.Package = q.Package ∧
      (UnmarshalYAML lib p cb).1.pkgRe = q.pkgRe ∧
      ((UnmarshalYAML lib p cb).1 = q ∨
        ∃ r t, lib.Compile q.Pattern = .ok r ∧ lib.Parse q.Pattern = .ok t ∧
          (UnmarshalYAML lib p cb).1 = { q with Msg := msgAfter t q.Msg, re := some r })) := by
  -- a failing validation leaves the pattern in one of two shapes
  have hval : ∀ q : Pattern Re, (validate lib q).2 = some e →
      (validate lib q).1.Pattern = q.Pattern ∧ (validate lib q).1.Package = q.Package ∧
      (validate lib q).1.pkgRe = q.pkgRe ∧
      ((validate lib q).1 = q ∨
        ∃ r t, lib.Compile q.Pattern = .ok r ∧ lib.Parse q.Pattern = .ok t ∧
          (validate lib q).1 = { q with Msg := msgAfter t q.Msg, re := some r }) := by
    intro q hq
    cases hc : lib.Compile q.Pattern with
    | error e1 =>
      rw [validate_compile_error lib q e1 hc]
      exact ⟨rfl, rfl, rfl, Or.inl rfl⟩
    | ok r =>
      cases hp : lib.Parse q.Pattern with
      | error e1 =>
        rw [validate_parse_error lib q r e1 hc hp]
        exact ⟨rfl, rfl, rfl, Or.inl rfl⟩
      | ok t =>
        by_cases hk : q.Package = ""
        · rw [validate_no_package lib q r t hc hp hk] at hq
          simp at hq
        · cases hk2 : lib.Compile q.Package with
          | error e1 =>
            rw [validate_package_error lib q r t e1 hc hp hk hk2]
            exact ⟨rfl, rfl, rfl, Or.inr ⟨r, t, rfl, rfl, rfl⟩⟩
          | ok k =>
            rw [validate_package_ok lib q r k t hc hp hk hk2] at hq
            simp at hq
  rcases h1 : cb.intoPattern zeroPattern with ⟨q0, _ | es⟩
  · right
    have hu : UnmarshalYAML lib p cb = validate lib q0 := by
      simp [UnmarshalYAML, h1]
    rw [hu] at h ⊢
    exact ⟨q0, Or.inl rfl, rfl, hval q0 h⟩
  · rcases h2 : cb.intoString "" with ⟨s, _ | e2⟩
    · right
      have hu : UnmarshalYAML lib p cb = validate lib { p with Pattern := s } := by
        simp [UnmarshalYAML, h1, h2]
      rw [hu] at h ⊢
      exact ⟨{ p with Pattern := s }, Or.inr ⟨⟨es, rfl⟩, rfl, rfl⟩, rfl, hval _ h⟩
    · left
      refine ⟨⟨es, rfl⟩, ⟨e2, rfl⟩, ?_⟩
      simp [UnmarshalYAML, h1, h2]

/-- Witness for C9 amended: the scalar `(` leaves `(` in the target. -/
theorem UnmarshalYAML_on_error_witness :
    (UnmarshalYAML goRegexp zeroPattern unmarshalParen).1.Pattern = "(" := by
  rcases UnmarshalYAML_on_error goRegexp zeroPattern unmarshalParen
      ("unable to compile source code pattern `(`: " ++
        "error parsing regexp: missing closing ): `(`") (by rfl) with
    ⟨_, ⟨err, herr⟩, _⟩ | ⟨q, _, _, hpat, _⟩
  · simp [unmarshalParen] at herr
  · decide

/-- C10. Running `validate` again on the pattern a first run left behind returns the
same error (or the same success) and leaves every field as the first run left it. -/
theorem validate_idempotent {Re : Type} (lib : RegexpLib Re) (p : Pattern Re) :
    validate lib (validate lib p).1 = validate lib p := by
  unfold validate
  cases hc : lib.Compile p.Pattern with
  | error e => simp [hc]
  | ok r =>
    cases hp : lib.Parse p.Pattern with
    | error e => simp [hc, hp]
    | ok t =>
      by_cases hm : extractComment t = "" <;> by_cases hk : p.Package = "" <;>
        simp [hm, hk, hc, hp]
      all_goals (cases hq : lib.Compile p.Package <;> simp [hc, hp, hm, hk, hq])

end forbidigo
